import Mathlib

/-!
Verification development for the csv-image-processor service.

The embedding models the variant of the program that is wired into the
HTTP routes: `src/routes/routes.js` imports `processCSV` and `getStatus`
from `src/controllers/uploadController.js`, and that controller spawns the
worker of `src/unnamed/part_001` (the worker reading `workerData`).  The
alternate S3-based controller and worker (`src/unnamed/part_001` second
document, `src/unnamed/part_000`) are noted in comments where their
behaviour differs.

JavaScript strings are modelled as `List Char`; `String.prototype.split`,
`Array.prototype.join` and `String.prototype.trim` are modelled
character-exactly below.  External collaborators (network, sharp, the file
system, MongoDB writes) are modelled as oracle fields of an `Env`
structure; the pipeline is a pure function from the oracle to the list of
observable events (status-record writes, per-product saves, webhook
calls), in program order.
-/

namespace CsvImg

/-- JavaScript strings, modelled as lists of characters. -/
abbrev JStr := List Char

/-- Coerce a Lean string literal into the `JStr` model. -/
def jstr (s : String) : JStr := s.data

/-- Model of JavaScript `str.split(c)` for a single-character separator:
splits at every occurrence, never returns the empty list, and the empty
string splits to `[[]]`. -/
def splitOnChar (c : Char) : JStr → List JStr
  | [] => [[]]
  | x :: xs =>
    if x = c then [] :: splitOnChar c xs
    else
      match splitOnChar c xs with
      | [] => [[x]]
      | y :: ys => (x :: y) :: ys

/-- Model of JavaScript `arr.join(c)` for a single-character separator. -/
def joinChar (c : Char) : List JStr → JStr
  | [] => []
  | [s] => s
  | s :: ss => s ++ c :: joinChar c ss

/-- Whitespace test used by the model of `String.prototype.trim`. -/
def isJsWhitespace (ch : Char) : Bool := ch.isWhitespace

/-- Strip trailing whitespace (second half of JavaScript `trim`). -/
def trimEnd (s : JStr) : JStr := (s.reverse.dropWhile isJsWhitespace).reverse

/-- Model of JavaScript `str.trim()`: strips leading and trailing
whitespace. -/
def trimJ (s : JStr) : JStr := trimEnd (s.dropWhile isJsWhitespace)

/-- Does `s` start with `pat`? (helper for the URL model). -/
def startsWithJ : JStr → JStr → Bool
  | _, [] => true
  | [], _ :: _ => false
  | x :: xs, y :: ys => x = y && startsWithJ xs ys

/-- Models `new URL(url).pathname` of Node's WHATWG URL class for plain
http/https URLs without userinfo: strip the scheme, skip the host up to
the first slash, and cut the query/fragment; an absent path reads as a
single slash; a non-http scheme is treated as an unparseable URL
(`new URL` throws there, which also aborts validation). -/
def urlPathname (url : JStr) : Option JStr :=
  if startsWithJ url (jstr "http://") then some (urlPathOfRest (url.drop 7))
  else if startsWithJ url (jstr "https://") then some (urlPathOfRest (url.drop 8))
  else none
where
  urlPathOfRest (rest : JStr) : JStr :=
    let p := (rest.dropWhile (fun ch => ch != '/')).takeWhile
      (fun ch => ch != '?' && ch != '#')
    if p = [] then jstr "/" else p

/-- Models Node's `path.basename`: the part after the last slash. -/
def basenameJ (p : JStr) : JStr := (p.reverse.takeWhile (fun ch => ch != '/')).reverse

/-- Models Node's `path.extname`: the suffix of the basename from its
last dot, empty when the only dot leads a hidden file name, with the
special cases for the dot components. -/
def extnameJ (p : JStr) : JStr :=
  let b := basenameJ p
  if b = jstr ".." then []
  else
    let pre := b.reverse.takeWhile (fun ch => ch != '.')
    if pre.length + 1 < b.length then '.' :: pre.reverse else []

/-- Models `str.toLowerCase()`. -/
def toLowerJ (s : JStr) : JStr := s.map Char.toLower

/-- The image-extension allow-list of `isValidImageUrl`
(`uploadController.js` line 18). -/
def validExtensions : List JStr := [jstr ".jpg", jstr ".jpeg", jstr ".png"]

/-- Embeds `isValidImageUrl` (`uploadController.js` lines 17-21): the
lower-cased extension of the URL's pathname must be on the allow-list.
An unparseable URL is treated as invalid (in the source `new URL`
throws, which likewise makes the record abort the batch). -/
def isValidImageUrl (url : JStr) : Bool :=
  match urlPathname url with
  | none => false
  | some p => validExtensions.contains (toLowerJ (extnameJ p))

/-- One parsed CSV row as `csv-parse` with `columns: true` delivers it to
`processRecordsAsync`: the two cells used by the program, with the empty
string standing for an absent or empty cell (both are falsy in the
source's truthiness checks). -/
structure RawRecord where
  productName : JStr
  inputImageUrls : JStr
deriving DecidableEq, Repr

/-- The reference list of a row: `record['Input Image Urls'].split(',').map(url => url.trim())`
(`uploadController.js` line 78). -/
def parsedUrls (r : RawRecord) : List JStr :=
  (splitOnChar ',' r.inputImageUrls).map trimJ

/-- The per-row validation of `processRecordsAsync` (lines 75-81): a
falsy name or reference cell, or any reference failing
`isValidImageUrl`, throws `CSV Format error`. -/
def validRecord (r : RawRecord) : Bool :=
  !(r.productName = []) && !(r.inputImageUrls = []) && (parsedUrls r).all isValidImageUrl

/-- File name a reference is stored under: `path.basename(new URL(url).pathname)`
(line 83). -/
def fileNameOf (url : JStr) : JStr := basenameJ ((urlPathname url).getD [])

/-- Local storage key of a fetched reference:
`path.join(__dirname, '..', 'uploads', 'input', fileName)` (line 84),
with the controller directory elided. -/
def downloadedPath (url : JStr) : JStr := jstr "uploads/input/" ++ fileNameOf url

/-- One element of the `results` array built by `processRecordsAsync`
(lines 88-93). -/
structure ItemResult where
  productName : JStr
  inputImageUrls : List JStr
  downloadedPaths : List JStr
  outputImageUrls : List JStr
deriving DecidableEq, Repr

/-- The record-to-result step of `processRecordsAsync` for one validated
row (lines 78-93), with all downloads succeeded. -/
def toItemResult (r : RawRecord) : ItemResult :=
  { productName := r.productName
    inputImageUrls := parsedUrls r
    downloadedPaths := (parsedUrls r).map downloadedPath
    outputImageUrls := [] }

/-- The states of the Status Record
(`requestStatusSchema`, `src/unnamed/part_002`). -/
inductive Status
  | processing
  | completed
  | failed
deriving DecidableEq, Repr

/-- Which sharp encoder the worker ran on a blob. -/
inductive Recompressed
  | jpeg (quality : Nat)
  | png (quality : Nat)
deriving DecidableEq, Repr

/-- The switch of the worker's `processImage`
(`src/unnamed/part_001` lines 15-25): a sniffed jpeg or jpg re-encodes
as jpeg at quality 60, png as png at quality 60, anything else throws
`Unsupported image format`. -/
def chooseEncoding (fmt : JStr) : Option Recompressed :=
  if fmt = jstr "jpeg" || fmt = jstr "jpg" then some (Recompressed.jpeg 60)
  else if fmt = jstr "png" then some (Recompressed.png 60)
  else none

/-- Oracle for the worker's interaction with sharp and the file system:
`sniff p` is `metadata.format` for the blob at `p` (`none` models
`metadata()` throwing on an undecodable blob), `encodeOk p` is whether
`toFile` succeeds. -/
structure WorkerEnv where
  sniff : JStr → Option JStr
  encodeOk : JStr → Bool

/-- Output location of a transformed blob: `/uploads/output/` plus the
input file name (`src/unnamed/part_001` lines 2-3 and 31). -/
def outputUrlFor (inputPath : JStr) : JStr :=
  jstr "/uploads/output/" ++ basenameJ inputPath

/-- Embeds the worker's `processImage` (`src/unnamed/part_001` lines
9-36): sniff the format, pick the encoder, write the result; every
failure is caught inside the function and reads as `null` (`none`).
The value also records which encoder ran. -/
def processImage (w : WorkerEnv) (inputPath : JStr) : Option (Recompressed × JStr) :=
  match w.sniff inputPath with
  | none => none
  | some fmt =>
    match chooseEncoding fmt with
    | none => none
    | some enc => if w.encodeOk inputPath then some (enc, outputUrlFor inputPath) else none

/-- Embeds the worker's `processImages` (`src/unnamed/part_001` lines
38-42): map `processImage` over the batch, then drop the `null`
entries, and post only the surviving output locations. -/
def processImages (w : WorkerEnv) (images : List JStr) : List JStr :=
  ((images.map (processImage w)).filter Option.isSome).filterMap
    (Option.map Prod.snd)

/-- Observable events of one job's pipeline, in program order:
status-record writes, per-product MongoDB saves (with their success
bit; failures are only logged by the source), and webhook calls. -/
inductive Ev
  | statusCreate (requestId : JStr)
  | statusUpdate (requestId : JStr) (status : Status) (error : Option JStr)
  | productSave (productName : JStr) (ok : Bool)
  | webhook (requestId : JStr) (csvPath : Option JStr) (error : Option JStr)
deriving DecidableEq, Repr

/-- Oracle for the stateful collaborators of one job: the per-reference
download outcome of `downloadImage` (rejection carries the error
message), the worker's sharp oracle, whether the worker dies with an
`error` event instead of posting its message (the message carried by
that event), the outcome of writing the output CSV, and the
per-product MongoDB save outcome.  The model assumes the worker either
posts its one message or fires one `error` event, and that
status-record writes themselves succeed. -/
structure Env where
  fetch : JStr → Except JStr Unit
  worker : WorkerEnv
  workerFault : Option JStr
  artifactWrite : Except JStr Unit
  saveOk : JStr → Bool

/-- The status-record write carried by one event, if any. -/
def statusWriteOf (e : Ev) : Option (JStr × Status × Option JStr) :=
  match e with
  | .statusCreate id => some (id, Status.processing, none)
  | .statusUpdate id s err => some (id, s, err)
  | _ => none

/-- The status writes of a trace: the create (always `processing`) and
every update, with the recorded error message. -/
def statusWrites (tr : List Ev) : List (JStr × Status × Option JStr) :=
  tr.filterMap statusWriteOf

/-- The webhook calls of a trace: request id, CSV attachment path (when
present), error text (when present). -/
def webhookCalls (tr : List Ev) : List (JStr × Option JStr × Option JStr) :=
  tr.filterMap fun e =>
    match e with
    | .webhook id p err => some (id, p, err)
    | _ => none

/-- Location of the output artifact:
`path.join(__dirname, '..', 'uploads', requestId_output.csv)` (line
145), with the controller directory elided. -/
def outputCsvPath (requestId : JStr) : JStr :=
  jstr "uploads/" ++ requestId ++ jstr "_output.csv"

/-- Embeds `triggerWebhook` (lines 196-226): skip when no webhook URL,
otherwise one outbound call carrying the request id, the CSV
attachment when a path was given, and the error text when given.
Delivery failures are caught and logged inside the function, so they
produce no further event. -/
def triggerWebhook (requestId : JStr) (csvPath : Option JStr)
    (webhookUrl : Option JStr) (error : Option JStr) : List Ev :=
  match webhookUrl with
  | none => []
  | some _ => [Ev.webhook requestId csvPath error]

/-- The per-item slicing of the worker reply inside the message handler
(lines 113-117): walk the flat output list, take one slice per item of
its reference count, drop `null` entries, and advance the index. -/
def sliceOutputs : List ItemResult → List (Option JStr) → List ItemResult
  | [], _ => []
  | r :: rs, outs =>
    { r with outputImageUrls := (outs.take r.inputImageUrls.length).filterMap id } ::
      sliceOutputs rs (outs.drop r.inputImageUrls.length)

/-- Prefixes a host onto a served path: `http://host + url` (lines 128
and 143). -/
def hostUrl (host url : JStr) : JStr := jstr "http://" ++ host ++ url

/-- One row of the output CSV (lines 140-144). -/
structure ArtifactRow where
  productName : JStr
  inputCell : JStr
  outputCell : JStr
deriving DecidableEq, Repr

/-- Embeds the output-CSV construction (lines 140-144): one row per
item in order, name, the source references joined with commas, and the
host-prefixed output references joined with commas. -/
def buildOutputCsvRows (host : JStr) (results : List ItemResult) : List ArtifactRow :=
  results.map fun r =>
    { productName := r.productName
      inputCell := joinChar ',' r.inputImageUrls
      outputCell := joinChar ',' (r.outputImageUrls.map (hostUrl host)) }

/-- Embeds the body of `worker.on('message')` (lines 111-166): slice
the reply per item and save each product record under its own
try/catch (a failed save is only logged), then write the output CSV,
then set the status to `completed`, then call the webhook; any throw
in the uncaught part (modelled at the artifact write) lands in the
handler's catch, which sets `failed` and calls the webhook with the
error text. -/
def handleWorkerMessage (env : Env) (requestId host : JStr)
    (webhookUrl : Option JStr) (results : List ItemResult)
    (outputUrls : List (Option JStr)) : List Ev :=
  let updated := sliceOutputs results outputUrls
  let saves := updated.map fun r => Ev.productSave r.productName (env.saveOk r.productName)
  match env.artifactWrite with
  | .error e =>
    saves ++ [Ev.statusUpdate requestId Status.failed (some e)] ++
      triggerWebhook requestId none webhookUrl (some e)
  | .ok _ =>
    saves ++ [Ev.statusUpdate requestId Status.completed none] ++
      triggerWebhook requestId (some (outputCsvPath requestId)) webhookUrl none

/-- Embeds `processImagesAsync` (lines 106-180): spawn the worker on
the flattened download paths; on a worker `error` event set `failed`
and call the webhook with the error text, otherwise handle the one
posted message. -/
def processImagesAsync (env : Env) (requestId : JStr) (results : List ItemResult)
    (host : JStr) (webhookUrl : Option JStr) : List Ev :=
  match env.workerFault with
  | some e =>
    [Ev.statusUpdate requestId Status.failed (some e)] ++
      triggerWebhook requestId none webhookUrl (some e)
  | none =>
    let posted := processImages env.worker
      ((results.map (fun r => r.downloadedPaths)).flatten)
    handleWorkerMessage env requestId host webhookUrl results (posted.map some)

/-- First download failure across all references of all records, in
list order (a determinisation of which rejection `Promise.all` reports
first; row-validation throws happen synchronously before any download
settles, so they are checked first in `processRecordsAsync` below). -/
def firstFetchError (env : Env) (records : List RawRecord) : Option JStr :=
  ((records.map parsedUrls).flatten).findSome? fun u =>
    match env.fetch u with
    | .error e => some e
    | .ok _ => none

/-- Embeds `processRecordsAsync` (lines 72-104): validate every row and
download every reference; any throw lands in the catch, which sets the
status to `failed` with the error message and — in this controller —
does not call the webhook.  With everything fetched, control passes to
`processImagesAsync`.  (The alternate S3 controller in
`src/unnamed/part_001` additionally calls the webhook in this catch.) -/
def processRecordsAsync (env : Env) (requestId : JStr) (records : List RawRecord)
    (host : JStr) (webhookUrl : Option JStr) : List Ev :=
  if records.all validRecord then
    match firstFetchError env records with
    | some e => [Ev.statusUpdate requestId Status.failed (some e)]
    | none =>
      processImagesAsync env requestId (records.map toItemResult) host webhookUrl
  else
    [Ev.statusUpdate requestId Status.failed (some (jstr "CSV Format error"))]

/-- Decimal rendering of `Date.now()`: models `now.toString()`. -/
def jsToString (n : Nat) : JStr := (toString n).data

/-- The intake request as `processCSV` sees it: whether a file arrived,
the webhook URL of the body and the configured default, the outcome of
`csv-parse` on the uploaded bytes (an external library, its rejection
modelled as an error), and the requesting host. -/
structure UploadReq where
  hasFile : Bool
  bodyWebhookUrl : Option JStr
  envWebhookUrl : Option JStr
  parseResult : Except JStr (List RawRecord)
  host : JStr

/-- The synchronous HTTP response of `processCSV`. -/
inductive IntakeResp
  | clientError (msg : JStr)
  | accepted (requestId : JStr)
deriving DecidableEq, Repr

/-- Embeds `processCSV` (lines 37-70): reject a missing file or webhook
URL, reject a CSV parse failure, otherwise mint `Date.now().toString()`
as the request id, create the `processing` status record, kick off the
asynchronous pipeline and answer `Processing started` at once.  The
returned trace is the create followed by the asynchronous events. -/
def processCSV (env : Env) (now : Nat) (req : UploadReq) : IntakeResp × List Ev :=
  if !req.hasFile then (IntakeResp.clientError (jstr "No file uploaded"), [])
  else
    match req.bodyWebhookUrl with
    | none =>
      match req.envWebhookUrl with
      | none => (IntakeResp.clientError (jstr "Webhook URL is required"), [])
      | some webhookUrl => processCSVParsed env now req webhookUrl
    | some webhookUrl => processCSVParsed env now req webhookUrl
where
  processCSVParsed (env : Env) (now : Nat) (req : UploadReq) (webhookUrl : JStr) :
      IntakeResp × List Ev :=
    match req.parseResult with
    | .error _ => (IntakeResp.clientError (jstr "CSV Format error"), [])
    | .ok records =>
      let requestId := jsToString now
      (IntakeResp.accepted requestId,
        Ev.statusCreate requestId ::
          processRecordsAsync env requestId records req.host (some webhookUrl))

/-- Model of `RequestStatus.create({ requestId, status: 'processing' })`
against a store honouring the unique index that `requestStatusSchema`
declares on `requestId` (`src/unnamed/part_002` lines 4-8): a fresh key
inserts a `processing` record, an existing key is rejected with a
duplicate-key error. -/
def createStatusRecord (store : List (JStr × Status)) (id : JStr) :
    Except JStr (List (JStr × Status)) :=
  if id ∈ store.map Prod.fst then Except.error (jstr "duplicate key")
  else Except.ok ((id, Status.processing) :: store)

/-- Concrete reference used by the witnesses: a valid jpg URL. -/
def urlA : JStr := jstr "http://x/a.jpg"

/-- Concrete reference used by the witnesses: a second valid jpg URL. -/
def urlB : JStr := jstr "http://x/b.jpg"

/-- Concrete row with name `A` and one reference. -/
def recA : RawRecord := { productName := jstr "A", inputImageUrls := urlA }

/-- Concrete row with name `B` and one reference. -/
def recB : RawRecord := { productName := jstr "B", inputImageUrls := urlB }

/-- Concrete webhook address used by the witnesses. -/
def whUrl : JStr := jstr "http://hook/cb"

/-- Worker oracle in which item A's stored blob sniffs as `gif`
(unsupported) and item B's as `jpeg`, with file writes succeeding. -/
def wGif : WorkerEnv :=
  { sniff := fun p => if p = downloadedPath urlA then some (jstr "gif")
      else some (jstr "jpeg")
    encodeOk := fun _ => true }

/-- Environment around `wGif` in which everything else succeeds. -/
def envGif : Env :=
  { fetch := fun _ => Except.ok ()
    worker := wGif
    workerFault := none
    artifactWrite := Except.ok ()
    saveOk := fun _ => true }

/-- Environment in which every collaborator succeeds and every blob
sniffs as `jpeg`, but the MongoDB save of product `A` fails. -/
def envSaveFail : Env :=
  { fetch := fun _ => Except.ok ()
    worker := { sniff := fun _ => some (jstr "jpeg"), encodeOk := fun _ => true }
    workerFault := none
    artifactWrite := Except.ok ()
    saveOk := fun name => !(name = jstr "A") }

/-- Environment in which the download of `urlA` rejects with
`network down` and everything else succeeds. -/
def envFetchFail : Env :=
  { fetch := fun u => if u = urlA then Except.error (jstr "network down")
      else Except.ok ()
    worker := { sniff := fun _ => some (jstr "jpeg"), encodeOk := fun _ => true }
    workerFault := none
    artifactWrite := Except.ok ()
    saveOk := fun _ => true }

/-- Intake request whose table parses to one row with an empty name
cell (a malformed row in the sense of the Item Validator). -/
def reqMissingName : UploadReq :=
  { hasFile := true
    bodyWebhookUrl := some whUrl
    envWebhookUrl := none
    parseResult := Except.ok [{ productName := [], inputImageUrls := urlA }]
    host := jstr "h" }

/-- Intake request whose table parses to the valid rows `A` and `B`. -/
def reqAB : UploadReq :=
  { hasFile := true
    bodyWebhookUrl := some whUrl
    envWebhookUrl := none
    parseResult := Except.ok [recA, recB]
    host := jstr "h" }

theorem splitOnChar_ne_nil (c : Char) (s : JStr) : splitOnChar c s ≠ [] := by
  induction s with
  | nil => simp [splitOnChar]
  | cons x xs ih =>
    simp only [splitOnChar]
    split
    · simp
    · cases h : splitOnChar c xs with
      | nil => simp
      | cons y ys => simp

theorem splitOnChar_of_not_mem (c : Char) (s : JStr) (h : c ∉ s) :
    splitOnChar c s = [s] := by
  induction s with
  | nil => simp [splitOnChar]
  | cons x xs ih =>
    simp only [List.mem_cons, not_or] at h
    simp only [splitOnChar]
    rw [if_neg (fun hx => h.1 hx.symm)]
    rw [ih h.2]

theorem splitOnChar_append (c : Char) (s rest : JStr) (h : c ∉ s) :
    splitOnChar c (s ++ c :: rest) = s :: splitOnChar c rest := by
  induction s with
  | nil => simp [splitOnChar]
  | cons x xs ih =>
    simp only [List.mem_cons, not_or] at h
    simp only [List.cons_append, splitOnChar, List.append_eq]
    rw [if_neg (fun hx => h.1 hx.symm)]
    rw [ih h.2]

theorem mem_splitOnChar_not_mem (c : Char) (s t : JStr)
    (h : t ∈ splitOnChar c s) : c ∉ t := by
  induction s generalizing t with
  | nil =>
    simp [splitOnChar] at h
    simp [h]
  | cons x xs ih =>
    simp only [splitOnChar] at h
    by_cases hx : x = c
    · rw [if_pos hx] at h
      rcases List.mem_cons.mp h with h1 | h2
      · simp [h1]
      · exact ih t h2
    · rw [if_neg hx] at h
      cases hsp : splitOnChar c xs with
      | nil => exact absurd hsp (splitOnChar_ne_nil c xs)
      | cons y ys =>
        rw [hsp] at h
        rcases List.mem_cons.mp h with h1 | h2
        · subst h1
          intro hm
          rcases List.mem_cons.mp hm with h3 | h4
          · exact hx h3.symm
          · exact ih y (by rw [hsp]; exact List.mem_cons_self y ys) h4
        · exact ih t (by rw [hsp]; exact List.mem_cons_of_mem y h2)

/-- Round trip: joining comma-free pieces and splitting again recovers
the pieces (the JavaScript `join`/`split` pair). -/
theorem splitOnChar_joinChar (c : Char) (l : List JStr) (hne : l ≠ [])
    (h : ∀ s ∈ l, c ∉ s) : splitOnChar c (joinChar c l) = l := by
  induction l with
  | nil => exact absurd rfl hne
  | cons s ss ih =>
    cases ss with
    | nil =>
      simp only [joinChar]
      exact splitOnChar_of_not_mem c s (h s (List.mem_cons_self s []))
    | cons t ts =>
      have hj : joinChar c (s :: t :: ts) = s ++ c :: joinChar c (t :: ts) := rfl
      rw [hj, splitOnChar_append c s _ (h s (List.mem_cons_self s _))]
      rw [ih (by simp) (fun u hu => h u (List.mem_cons_of_mem s hu))]

theorem mem_dropWhile {α : Type} (p : α → Bool) (l : List α) (x : α)
    (h : x ∈ l.dropWhile p) : x ∈ l := by
  induction l with
  | nil => simp [List.dropWhile] at h
  | cons a as ih =>
    rw [List.dropWhile_cons] at h
    by_cases hp : p a
    · rw [if_pos hp] at h
      exact List.mem_cons_of_mem a (ih h)
    · rw [if_neg hp] at h
      exact h

theorem mem_trimJ (s : JStr) (x : Char) (h : x ∈ trimJ s) : x ∈ s := by
  unfold trimJ trimEnd at h
  rw [List.mem_reverse] at h
  have h1 := mem_dropWhile isJsWhitespace _ x h
  rw [List.mem_reverse] at h1
  exact mem_dropWhile isJsWhitespace s x h1

theorem dropWhile_dropWhile {α : Type} (p : α → Bool) (l : List α) :
    (l.dropWhile p).dropWhile p = l.dropWhile p := by
  induction l with
  | nil => simp [List.dropWhile]
  | cons a as ih =>
    rw [List.dropWhile_cons]
    by_cases hp : p a
    · rw [if_pos hp, ih]
    · rw [if_neg hp]
      simp [List.dropWhile_cons, hp]

theorem head_dropWhile_false {α : Type} (p : α → Bool) (l : List α) (a : α)
    (h : (l.dropWhile p).head? = some a) : p a = false := by
  induction l with
  | nil => simp [List.dropWhile] at h
  | cons x xs ih =>
    rw [List.dropWhile_cons] at h
    by_cases hp : p x
    · rw [if_pos hp] at h
      exact ih h
    · rw [if_neg hp] at h
      simp only [List.head?_cons, Option.some.injEq] at h
      rw [← h]
      exact Bool.of_not_eq_true hp

theorem dropWhile_append_singleton {α : Type} (p : α → Bool) (xs : List α)
    (a : α) (ha : p a = false) :
    ∃ ys, (xs ++ [a]).dropWhile p = ys ++ [a] := by
  induction xs with
  | nil => exact ⟨[], by simp [List.dropWhile_cons, ha]⟩
  | cons x xs ih =>
    by_cases hp : p x
    · rcases ih with ⟨ys, hys⟩
      exact ⟨ys, by simp [List.dropWhile_cons, hp, hys]⟩
    · exact ⟨x :: xs, by simp [List.dropWhile_cons, hp]⟩

theorem trimEnd_trimEnd (s : JStr) : trimEnd (trimEnd s) = trimEnd s := by
  unfold trimEnd
  rw [List.reverse_reverse, dropWhile_dropWhile]

theorem dropWhile_trimEnd (s : JStr)
    (h : ∀ a, s.head? = some a → isJsWhitespace a = false) :
    (trimEnd s).dropWhile isJsWhitespace = trimEnd s := by
  cases s with
  | nil => simp [trimEnd, List.dropWhile]
  | cons a s' =>
    have ha : isJsWhitespace a = false := h a rfl
    unfold trimEnd
    have : (a :: s').reverse = s'.reverse ++ [a] := by simp
    rw [this]
    rcases dropWhile_append_singleton isJsWhitespace s'.reverse a ha with ⟨ys, hys⟩
    rw [hys]
    simp [List.dropWhile_cons, ha]

/-- JavaScript `trim` is idempotent. -/
theorem trimJ_trimJ (s : JStr) : trimJ (trimJ s) = trimJ s := by
  unfold trimJ
  rw [dropWhile_trimEnd _ (fun a ha => head_dropWhile_false isJsWhitespace s a ha)]
  exact trimEnd_trimEnd _

theorem statusWrites_append (a b : List Ev) :
    statusWrites (a ++ b) = statusWrites a ++ statusWrites b := by
  unfold statusWrites
  exact List.filterMap_append a b _

theorem statusWrites_productSaves (l : List ItemResult) (g : ItemResult → Bool) :
    statusWrites (l.map fun r => Ev.productSave r.productName (g r)) = [] := by
  induction l with
  | nil => rfl
  | cons r rs ih =>
    simp only [List.map_cons]
    show statusWrites (Ev.productSave r.productName (g r) :: _) = []
    unfold statusWrites at ih ⊢
    rw [List.filterMap_cons]
    exact ih

theorem statusWrites_map_eq_nil {α : Type} (h : α → Ev)
    (hs : ∀ a, statusWriteOf (h a) = none) (l : List α) :
    statusWrites (l.map h) = [] := by
  unfold statusWrites
  induction l with
  | nil => rfl
  | cons a l ih =>
    rw [List.map_cons, List.filterMap_cons, hs a]
    exact ih

theorem statusWrites_triggerWebhook (a : JStr) (b : Option JStr)
    (c d : Option JStr) : statusWrites (triggerWebhook a b c d) = [] := by
  cases c with
  | none => rfl
  | some wh => rfl

theorem statusWrites_update (id : JStr) (s : Status) (e : Option JStr) :
    statusWrites [Ev.statusUpdate id s e] = [(id, s, e)] := rfl

/-- Every run of the asynchronous pipeline writes exactly one terminal
status, whichever way the oracle resolves. -/
theorem statusWrites_processRecordsAsync (env : Env) (id : JStr)
    (records : List RawRecord) (host : JStr) (wh : Option JStr) :
    ∃ t e, (t = Status.completed ∨ t = Status.failed) ∧
      statusWrites (processRecordsAsync env id records host wh) = [(id, t, e)] := by
  unfold processRecordsAsync
  by_cases hv : records.all validRecord
  · rw [if_pos hv]
    cases hf : firstFetchError env records with
    | some e => exact ⟨Status.failed, some e, Or.inr rfl, rfl⟩
    | none =>
      unfold processImagesAsync
      cases hw : env.workerFault with
      | some e =>
        refine ⟨Status.failed, some e, Or.inr rfl, ?_⟩
        rw [statusWrites_append, statusWrites_triggerWebhook, statusWrites_update]
        rfl
      | none =>
        unfold handleWorkerMessage
        cases ha : env.artifactWrite with
        | error e =>
          refine ⟨Status.failed, some e, Or.inr rfl, ?_⟩
          rw [statusWrites_append, statusWrites_append,
            statusWrites_productSaves, statusWrites_triggerWebhook,
            statusWrites_update]
          rfl
        | ok u =>
          refine ⟨Status.completed, none, Or.inl rfl, ?_⟩
          rw [statusWrites_append, statusWrites_append,
            statusWrites_productSaves, statusWrites_triggerWebhook,
            statusWrites_update]
          rfl
  · rw [if_neg hv]
    exact ⟨Status.failed, some (jstr "CSV Format error"), Or.inr rfl, rfl⟩

theorem sliceOutputs_productName (rs : List ItemResult) (outs : List (Option JStr)) :
    (sliceOutputs rs outs).map (fun r => r.productName) =
      rs.map (fun r => r.productName) := by
  induction rs generalizing outs with
  | nil => rfl
  | cons r rs ih => simp [sliceOutputs, ih]

theorem sliceOutputs_inputUrls (rs : List ItemResult) (outs : List (Option JStr)) :
    (sliceOutputs rs outs).map (fun r => r.inputImageUrls) =
      rs.map (fun r => r.inputImageUrls) := by
  induction rs generalizing outs with
  | nil => rfl
  | cons r rs ih => simp [sliceOutputs, ih]

/-- The trace of a job in which validation, every download, the worker
and the artifact write succeed: one save event per record in order
(carrying that record's own save outcome), then the `completed` status
write, then the webhook call with the artifact. -/
theorem processRecordsAsync_success (env : Env) (id : JStr)
    (records : List RawRecord) (host wh : JStr)
    (hv : records.all validRecord = true)
    (hf : firstFetchError env records = none)
    (hw : env.workerFault = none)
    (ha : env.artifactWrite = Except.ok ()) :
    processRecordsAsync env id records host (some wh) =
      (records.map fun r => Ev.productSave r.productName (env.saveOk r.productName)) ++
      [Ev.statusUpdate id Status.completed none,
       Ev.webhook id (some (outputCsvPath id)) none] := by
  unfold processRecordsAsync
  rw [if_pos hv, hf]
  dsimp only
  unfold processImagesAsync
  rw [hw]
  dsimp only
  unfold handleWorkerMessage
  rw [ha]
  dsimp only
  have hsaves : ∀ (l : List ItemResult) (outs : List (Option JStr)),
      (sliceOutputs l outs).map
          (fun r => Ev.productSave r.productName (env.saveOk r.productName)) =
        l.map (fun r => Ev.productSave r.productName (env.saveOk r.productName)) := by
    intro l outs
    have h1 := congrArg
      (List.map (fun n => Ev.productSave n (env.saveOk n)))
      (sliceOutputs_productName l outs)
    simpa [List.map_map, Function.comp] using h1
  rw [hsaves]
  have h2 : (records.map toItemResult).map
      (fun r => Ev.productSave r.productName (env.saveOk r.productName)) =
      records.map (fun r => Ev.productSave r.productName (env.saveOk r.productName)) := by
    rw [List.map_map]
    rfl
  rw [h2, List.append_assoc]
  rfl

theorem statusWrites_create_cons (id : JStr) (rest : List Ev) :
    statusWrites (Ev.statusCreate id :: rest) =
      (id, Status.processing, none) :: statusWrites rest := by
  unfold statusWrites
  rw [List.filterMap_cons]
  rfl

/-- Any accepted intake response carries `Date.now().toString()` as its
request id. -/
theorem accepted_id_eq (env : Env) (now : Nat) (req : UploadReq) (id : JStr)
    (h : (processCSV env now req).1 = IntakeResp.accepted id) :
    id = jsToString now := by
  unfold processCSV at h
  cases hf : req.hasFile with
  | false => rw [hf] at h; simp at h
  | true =>
    rw [hf] at h
    simp only [Bool.not_true, Bool.false_eq_true, if_false] at h
    have hparsed : ∀ wh, (processCSV.processCSVParsed env now req wh).1 =
        IntakeResp.accepted id → id = jsToString now := by
      intro wh hp
      unfold processCSV.processCSVParsed at hp
      cases hpr : req.parseResult with
      | error e => rw [hpr] at hp; simp at hp
      | ok records =>
        rw [hpr] at hp
        simp only [IntakeResp.accepted.injEq] at hp
        exact hp.symm
    cases hb : req.bodyWebhookUrl with
    | some wh => rw [hb] at h; exact hparsed wh h
    | none =>
      rw [hb] at h
      cases he : req.envWebhookUrl with
      | none => rw [he] at h; simp at h
      | some wh => rw [he] at h; exact hparsed wh h

/-- C1: for every accepted intake, exactly one Status Record keyed by
the job id is created with state `processing`, and the pipeline updates
it exactly once, to a terminal state (`completed` or `failed`); no
write ever sets it back to `processing` and no second terminal write
occurs. -/
theorem c1_status_record_exactly_once (env : Env) (now : Nat) (req : UploadReq)
    (id : JStr) (tr : List Ev)
    (h : processCSV env now req = (IntakeResp.accepted id, tr)) :
    ∃ t e, (t = Status.completed ∨ t = Status.failed) ∧
      statusWrites tr = [(id, Status.processing, none), (id, t, e)] := by
  have hid : id = jsToString now :=
    accepted_id_eq env now req id (by rw [h])
  unfold processCSV at h
  cases hf : req.hasFile with
  | false => rw [hf] at h; simp at h
  | true =>
    rw [hf] at h
    simp only [Bool.not_true, Bool.false_eq_true, if_false] at h
    have hparsed : ∀ wh, processCSV.processCSVParsed env now req wh =
        (IntakeResp.accepted id, tr) →
        ∃ t e, (t = Status.completed ∨ t = Status.failed) ∧
          statusWrites tr = [(id, Status.processing, none), (id, t, e)] := by
      intro wh hp
      unfold processCSV.processCSVParsed at hp
      cases hpr : req.parseResult with
      | error e => rw [hpr] at hp; simp at hp
      | ok records =>
        rw [hpr] at hp
        have htr : tr = Ev.statusCreate (jsToString now) ::
            processRecordsAsync env (jsToString now) records req.host (some wh) :=
          (congrArg Prod.snd hp).symm
        rcases statusWrites_processRecordsAsync env (jsToString now) records
          req.host (some wh) with ⟨t, e, hterm, hsw⟩
        refine ⟨t, e, hterm, ?_⟩
        rw [htr, statusWrites_create_cons, hsw, hid]
    cases hb : req.bodyWebhookUrl with
    | some wh => rw [hb] at h; exact hparsed wh h
    | none =>
      rw [hb] at h
      cases he : req.envWebhookUrl with
      | none => rw [he] at h; simp at h
      | some wh => rw [he] at h; exact hparsed wh h

/-- C1 witness: the two-row job `A`, `B` against the all-success
oracle. -/
theorem c1_status_record_exactly_once_witness :
    ∃ t e, (t = Status.completed ∨ t = Status.failed) ∧
      statusWrites [Ev.statusCreate (jstr "5"), Ev.productSave (jstr "A") true,
        Ev.productSave (jstr "B") true,
        Ev.statusUpdate (jstr "5") Status.completed none,
        Ev.webhook (jstr "5") (some (jstr "uploads/5_output.csv")) none] =
      [(jstr "5", Status.processing, none), (jstr "5", t, e)] :=
  c1_status_record_exactly_once envGif 5 reqAB (jstr "5") _ (by decide)

/-- C2: evaluation at the failing input.  With two stored blobs of
which the first fails to transform, the worker of
`src/unnamed/part_001` posts a one-entry reply — it filters the `null`
marker out before posting instead of returning one entry per input
location, so the reply reaching the coordinator is silently
shortened. -/
theorem c2_worker_reply_drops_failures :
    processImages wGif [downloadedPath urlA, downloadedPath urlB] =
      [outputUrlFor (downloadedPath urlB)] ∧
    processImage wGif (downloadedPath urlA) = none ∧
    processImage wGif (downloadedPath urlB) ≠ none := by decide

/-- C3: evaluation at the failing input.  Because the worker dropped
the failure marker, the coordinator's positional slicing hands item
`A` (whose own reference failed) the full-length output list holding
item `B`'s transformed blob, while item `B` (none of whose references
failed) receives the strictly shorter empty list — both directions of
the claimed equivalence fail. -/
theorem c3_shortfall_misattributed :
    (sliceOutputs ([recA, recB].map toItemResult)
        ((processImages wGif
          (([recA, recB].map toItemResult).map (fun r => r.downloadedPaths)).flatten).map
          some)).map (fun r => r.outputImageUrls) =
      [[outputUrlFor (downloadedPath urlB)], []] ∧
    processImage wGif (downloadedPath urlA) = none ∧
    processImage wGif (downloadedPath urlB) ≠ none := by decide

/-- C4 counterexample: at the concrete intake whose table parses to one
row with a missing name cell, `processCSV` answers `accepted` with a
fresh job id — not a client error — and the trace shows the Status
Record being created (and later marked `failed` asynchronously),
refuting the claim at this input. -/
theorem c4_malformed_row_accepted_counterexample :
    (processCSV envGif 5 reqMissingName).1 = IntakeResp.accepted (jstr "5") ∧
    (processCSV envGif 5 reqMissingName).2 =
      [Ev.statusCreate (jstr "5"),
       Ev.statusUpdate (jstr "5") Status.failed (some (jstr "CSV Format error"))] := by
  decide

/-- C4 (amended): a table whose CSV syntax parses but that contains a
row with a missing name field, a missing reference-list field, or a
disallowed reference extension is accepted at intake: a job id is
returned, the Status Record is created with `processing`, and the job
is marked `failed` with `CSV Format error` asynchronously. -/
theorem c4_malformed_row_async_failure (env : Env) (now : Nat) (req : UploadReq)
    (records : List RawRecord) (wh : JStr)
    (h1 : req.hasFile = true) (h2 : req.bodyWebhookUrl = some wh)
    (h3 : req.parseResult = Except.ok records)
    (h4 : records.all validRecord = false) :
    processCSV env now req =
      (IntakeResp.accepted (jsToString now),
       [Ev.statusCreate (jsToString now),
        Ev.statusUpdate (jsToString now) Status.failed
          (some (jstr "CSV Format error"))]) := by
  unfold processCSV
  rw [h1]
  simp only [Bool.not_true, Bool.false_eq_true, if_false]
  rw [h2]
  dsimp only
  unfold processCSV.processCSVParsed
  rw [h3]
  dsimp only
  unfold processRecordsAsync
  rw [if_neg (by rw [h4]; exact fun hc => Bool.false_ne_true hc)]

/-- C4 witness for the amended claim: the missing-name request. -/
theorem c4_malformed_row_async_failure_witness :
    processCSV envGif 5 reqMissingName =
      (IntakeResp.accepted (jsToString 5),
       [Ev.statusCreate (jsToString 5),
        Ev.statusUpdate (jsToString 5) Status.failed
          (some (jstr "CSV Format error"))]) :=
  c4_malformed_row_async_failure envGif 5 reqMissingName
    [{ productName := [], inputImageUrls := urlA }] whUrl rfl rfl rfl (by decide)

/-- C5 counterexample: at the concrete job whose single download
rejects with `network down`, the Status Record is set to `failed` with
that message, but the trace contains no webhook call at all — this
controller's fetch-failure catch never invokes the Notifier, refuting
the claim at this input. -/
theorem c5_fetch_failure_counterexample :
    processRecordsAsync envFetchFail (jstr "1") [recA] (jstr "h") (some whUrl) =
      [Ev.statusUpdate (jstr "1") Status.failed (some (jstr "network down"))] ∧
    webhookCalls
      (processRecordsAsync envFetchFail (jstr "1") [recA] (jstr "h") (some whUrl)) =
      [] := by decide

/-- C5 (amended): when any single download fails, the Status Record is
set to `failed` with the error message recorded, and the Notifier is
not invoked at all for fetch-stage failures in this controller (the
alternate S3 controller calls it after the terminal write). -/
theorem c5_fetch_failure_no_notifier (env : Env) (id : JStr)
    (records : List RawRecord) (host : JStr) (wh : Option JStr) (e : JStr)
    (hv : records.all validRecord = true)
    (hf : firstFetchError env records = some e) :
    processRecordsAsync env id records host wh =
      [Ev.statusUpdate id Status.failed (some e)] ∧
    webhookCalls (processRecordsAsync env id records host wh) = [] := by
  unfold processRecordsAsync
  rw [if_pos hv, hf]
  exact ⟨rfl, rfl⟩

/-- C5 witness for the amended claim: the `network down` job. -/
theorem c5_fetch_failure_no_notifier_witness :
    processRecordsAsync envFetchFail (jstr "1") [recA] (jstr "h") (some whUrl) =
      [Ev.statusUpdate (jstr "1") Status.failed (some (jstr "network down"))] ∧
    webhookCalls
      (processRecordsAsync envFetchFail (jstr "1") [recA] (jstr "h") (some whUrl)) =
      [] :=
  c5_fetch_failure_no_notifier envFetchFail (jstr "1") [recA] (jstr "h")
    (some whUrl) (jstr "network down") (by decide) (by decide)

/-- C6 counterexample: the table that parses to zero rows is not
rejected as a format error: the concrete run completes, writing
`completed` for a job with an empty item list and firing the webhook
with an (empty) artifact, refuting the claim at this input. -/
theorem c6_zero_row_completes_counterexample :
    processRecordsAsync envGif (jstr "1") [] (jstr "h") (some whUrl) =
      [Ev.statusUpdate (jstr "1") Status.completed none,
       Ev.webhook (jstr "1") (some (outputCsvPath (jstr "1"))) none] := by decide

/-- C6 (amended): an intake table that parses to zero rows is accepted,
and — absent worker or artifact-write faults — the job transitions to
`completed` with zero items and an empty artifact; no format rejection
happens.  (A table whose rows are all invalid is instead marked
`failed` asynchronously.) -/
theorem c6_zero_rows_complete (env : Env) (id host wh : JStr)
    (hw : env.workerFault = none) (ha : env.artifactWrite = Except.ok ()) :
    processRecordsAsync env id [] host (some wh) =
      [Ev.statusUpdate id Status.completed none,
       Ev.webhook id (some (outputCsvPath id)) none] :=
  processRecordsAsync_success env id [] host wh rfl rfl hw ha

/-- C6 witness for the amended claim. -/
theorem c6_zero_rows_complete_witness :
    processRecordsAsync envGif (jstr "1") [] (jstr "h") (some whUrl) =
      [Ev.statusUpdate (jstr "1") Status.completed none,
       Ev.webhook (jstr "1") (some (outputCsvPath (jstr "1"))) none] :=
  c6_zero_rows_complete envGif (jstr "1") (jstr "h") whUrl rfl rfl

/-- C7: for every job that reaches the persistence stage (validation,
downloads and the worker succeeded) whose artifact write succeeds, the
trace contains exactly one save event per item, in order, each carrying
only its own item's save outcome — so one item's durable-write failure
neither aborts the batch, nor removes a sibling's save, nor prevents
the `completed` transition and the artifact webhook. -/
theorem c7_persistence_best_effort (env : Env) (id : JStr)
    (records : List RawRecord) (host wh : JStr)
    (hv : records.all validRecord = true)
    (hf : firstFetchError env records = none)
    (hw : env.workerFault = none)
    (ha : env.artifactWrite = Except.ok ()) :
    processRecordsAsync env id records host (some wh) =
      (records.map fun r => Ev.productSave r.productName (env.saveOk r.productName)) ++
      [Ev.statusUpdate id Status.completed none,
       Ev.webhook id (some (outputCsvPath id)) none] :=
  processRecordsAsync_success env id records host wh hv hf hw ha

/-- C7 witness: the two-row job in which product `A`'s save fails:
both saves still happen and the job completes. -/
theorem c7_persistence_best_effort_witness :
    processRecordsAsync envSaveFail (jstr "9") [recA, recB] (jstr "h") (some whUrl) =
      [Ev.productSave (jstr "A") false, Ev.productSave (jstr "B") true,
       Ev.statusUpdate (jstr "9") Status.completed none,
       Ev.webhook (jstr "9") (some (outputCsvPath (jstr "9"))) none] := by
  rw [c7_persistence_best_effort envSaveFail (jstr "9") [recA, recB] (jstr "h")
    whUrl (by decide) (by decide) rfl rfl]
  decide

/-- A row's parsed reference list survives the join-then-split-and-trim
round trip of the artifact cell. -/
theorem parsedUrls_round_trip (r : RawRecord) :
    (splitOnChar ',' (joinChar ',' (parsedUrls r))).map trimJ = parsedUrls r := by
  have hne : parsedUrls r ≠ [] := by
    unfold parsedUrls
    intro hmap
    exact splitOnChar_ne_nil ',' r.inputImageUrls (List.map_eq_nil_iff.mp hmap)
  have hcf : ∀ s ∈ parsedUrls r, ',' ∉ s := by
    intro s hs
    unfold parsedUrls at hs
    rcases List.mem_map.mp hs with ⟨t, ht, hts⟩
    intro hc
    rw [← hts] at hc
    exact mem_splitOnChar_not_mem ',' r.inputImageUrls t ht (mem_trimJ t ',' hc)
  rw [splitOnChar_joinChar ',' _ hne hcf]
  unfold parsedUrls
  have hcomp : trimJ ∘ trimJ = trimJ := funext trimJ_trimJ
  rw [List.map_map, hcomp]

/-- C8: for every valid intake table, parsing the produced Output
Artifact back (the same split-and-trim the intake applies) yields
exactly the original item names and source-reference lists, in the
same row order, whatever outputs the worker reply contributed. -/
theorem c8_artifact_round_trip (host : JStr) (records : List RawRecord)
    (outs : List (Option JStr)) (hv : records.all validRecord = true) :
    (buildOutputCsvRows host (sliceOutputs (records.map toItemResult) outs)).map
        (fun row => (row.productName, (splitOnChar ',' row.inputCell).map trimJ)) =
      records.map (fun r => (r.productName, parsedUrls r)) := by
  induction records generalizing outs with
  | nil => rfl
  | cons r rs ih =>
    have hv2 : rs.all validRecord = true := by
      rw [List.all_cons, Bool.and_eq_true] at hv
      exact hv.2
    simp only [List.map_cons, sliceOutputs, buildOutputCsvRows]
    refine congrArg₂ List.cons ?_ ?_
    · show (r.productName, (splitOnChar ',' (joinChar ',' (parsedUrls r))).map trimJ)
        = (r.productName, parsedUrls r)
      rw [parsedUrls_round_trip]
    · exact ih _ hv2

/-- C8 witness: the one-row table `A` with an arbitrary worker
output. -/
theorem c8_artifact_round_trip_witness :
    ([recA].all validRecord = true) ∧
    (buildOutputCsvRows (jstr "h")
        (sliceOutputs ([recA].map toItemResult)
          [some (jstr "/uploads/output/a.jpg")])).map
        (fun row => (row.productName, (splitOnChar ',' row.inputCell).map trimJ)) =
      [recA].map (fun r => (r.productName, parsedUrls r)) :=
  ⟨by decide,
    c8_artifact_round_trip (jstr "h") [recA] [some (jstr "/uploads/output/a.jpg")]
      (by decide)⟩

/-- C9: a stored blob sniffed as jpeg is re-encoded as jpeg and one
sniffed as png is re-encoded as png, both at quality 60; any other
sniffed format is the caught unsupported-format failure for that single
blob (`null`), each blob's outcome depends only on its own entry, and a
blob failure never turns the job's terminal status away from
`completed`. -/
theorem c9_transform_format_policy (w : WorkerEnv) (p : JStr) :
    (w.sniff p = some (jstr "jpeg") → w.encodeOk p = true →
      processImage w p = some (Recompressed.jpeg 60, outputUrlFor p)) ∧
    (w.sniff p = some (jstr "png") → w.encodeOk p = true →
      processImage w p = some (Recompressed.png 60, outputUrlFor p)) ∧
    (∀ fmt, w.sniff p = some fmt → chooseEncoding fmt = none →
      processImage w p = none) ∧
    (∀ (images : List JStr) (i : Nat),
      (images.map (processImage w))[i]? = (images[i]?).map (processImage w)) ∧
    (∀ (env : Env) (id : JStr) (records : List RawRecord) (host wh : JStr),
      records.all validRecord = true → firstFetchError env records = none →
      env.workerFault = none → env.artifactWrite = Except.ok () →
      statusWrites (processRecordsAsync env id records host (some wh)) =
        [(id, Status.completed, none)]) := by
  refine ⟨?_, ?_, ?_, ?_, ?_⟩
  · intro h1 h2
    unfold processImage
    rw [h1]
    dsimp only
    rw [show chooseEncoding (jstr "jpeg") = some (Recompressed.jpeg 60) from by decide]
    dsimp only
    rw [h2]
    rw [if_pos rfl]
  · intro h1 h2
    unfold processImage
    rw [h1]
    dsimp only
    rw [show chooseEncoding (jstr "png") = some (Recompressed.png 60) from by decide]
    dsimp only
    rw [h2]
    rw [if_pos rfl]
  · intro fmt h1 h2
    unfold processImage
    rw [h1]
    dsimp only
    rw [h2]
  · intro images i
    exact List.getElem?_map (processImage w) images i
  · intro env id records host wh hv hf hw ha
    rw [processRecordsAsync_success env id records host wh hv hf hw ha]
    rw [statusWrites_append,
      statusWrites_map_eq_nil
        (fun r => Ev.productSave r.productName (env.saveOk r.productName))
        (fun a => rfl) records]
    rfl

/-- C9 witness: a blob sniffed as jpeg under an all-success sharp
oracle. -/
theorem c9_transform_format_policy_witness :
    envSaveFail.worker.sniff (jstr "uploads/input/x.jpg") = some (jstr "jpeg") ∧
    processImage envSaveFail.worker (jstr "uploads/input/x.jpg") =
      some (Recompressed.jpeg 60, outputUrlFor (jstr "uploads/input/x.jpg")) :=
  ⟨rfl, (c9_transform_format_policy envSaveFail.worker (jstr "uploads/input/x.jpg")).1
    rfl rfl⟩

/-- C10: the job id is a function of the wall clock alone
(`Date.now().toString()`): any two accepted intakes handled at the same
millisecond receive the same id; and because `requestStatusSchema`
declares `requestId` unique, the second status-record creation under
that id is rejected by the store with a duplicate-key error. -/
theorem c10_same_millisecond_duplicate (now : Nat) (env1 env2 : Env)
    (req1 req2 : UploadReq) (id1 id2 : JStr) (store : List (JStr × Status))
    (h1 : (processCSV env1 now req1).1 = IntakeResp.accepted id1)
    (h2 : (processCSV env2 now req2).1 = IntakeResp.accepted id2) :
    id1 = id2 ∧
    (jsToString now ∉ store.map Prod.fst →
      createStatusRecord store (jsToString now) =
        Except.ok ((jsToString now, Status.processing) :: store) ∧
      createStatusRecord ((jsToString now, Status.processing) :: store)
          (jsToString now) =
        Except.error (jstr "duplicate key")) := by
  refine ⟨?_, ?_⟩
  · rw [accepted_id_eq env1 now req1 id1 h1, accepted_id_eq env2 now req2 id2 h2]
  · intro hmem
    refine ⟨?_, ?_⟩
    · unfold createStatusRecord
      rw [if_neg hmem]
    · unfold createStatusRecord
      rw [if_pos (by rw [List.map_cons]; exact List.mem_cons_self _ _)]

/-- C10 witness: two distinct intake requests at millisecond 7 and an
empty store. -/
theorem c10_same_millisecond_duplicate_witness :
    jsToString 7 = jsToString 7 ∧
    createStatusRecord [] (jsToString 7) =
      Except.ok [(jsToString 7, Status.processing)] ∧
    createStatusRecord [(jsToString 7, Status.processing)] (jsToString 7) =
      Except.error (jstr "duplicate key") :=
  have h := c10_same_millisecond_duplicate 7 envGif envFetchFail reqAB
    reqMissingName (jsToString 7) (jsToString 7) [] (by decide) (by decide)
  ⟨h.1, h.2 (by decide)⟩

end CsvImg
